import Mathlib

/-!
# A data-access layer over a pooled PostgreSQL client

Shallow embedding of `src/db/BaseDatabase.js`, `src/db/PostgresConnection.js` and
`src/repositories/userRepository.js`.

Conventions of the embedding

* A JavaScript computation that may `throw` is a value of `Except ε α`, where `ε` is
  `JsValue` when anything may be thrown and `JsError` where only `Error` objects are;
  `try { .. } catch (error) { .. }` is `tryCatch`.
* What the outside world does (the pool, the clock, the process environment, the
  Unicode tables of the host) is an explicit argument of the operation that consults it.
* A JavaScript object literal whose fields may be missing is a structure of `Option`s.
-/

namespace JsPg

/-! ## JavaScript values -/

deriving instance DecidableEq for Except

/-- An `Error` object made by `new Error(message)`, as the repository and the pool make
them. -/
structure JsError where
  message : String
  deriving DecidableEq, Repr

/-- A JavaScript number: a finite value, `NaN`, or one of the two infinities.
Finite values are kept as rationals (each finite double is one). -/
inductive JsNumber where
  | finite (q : ℚ)
  | nan
  | posInf
  | negInf
  deriving DecidableEq

/-- A JavaScript value. A string is kept as its sequence of code points. Among the
objects, `error e` is an `Error` object with the message of `e`, `typeError detail` is a
`TypeError` made by the engine (`detail` stands for the text of its message, which is the
engine's), and `object ref` is any other object, known by its reference. -/
inductive JsValue where
  | undefined
  | null
  | boolean (b : Bool)
  | number (x : JsNumber)
  | bigint (i : Int)
  | string (s : String)
  | symbol (description : String)
  | error (e : JsError)
  | typeError (detail : String)
  | object (ref : Nat)
  deriving DecidableEq

/-- The expression `v.message`. On `null` and `undefined` the engine raises a `TypeError`;
on an `Error` object it is the message; on a primitive value it is `undefined`; on any
other object it is what `objects` says of its reference: the value of the property
(`undefined` when there is none), or what its getter raises. -/
def JsValue.message (objects : Nat → Except JsValue JsValue) :
    JsValue → Except JsValue JsValue
  | .undefined => throw (.typeError "cannot read property message of undefined")
  | .null => throw (.typeError "cannot read property message of null")
  | .error e => pure (.string e.message)
  | .typeError detail => pure (.string detail)
  | .object ref => objects ref
  | _ => pure .undefined

/-- `Number.isInteger(v)`: `v` is a number, finite, and has no fractional part. -/
def Number.isInteger : JsValue → Bool
  | .number (.finite q) => q.isInt
  | _ => false

/-- `x <= 0` on numbers: false when `x` is `NaN`. -/
def JsNumber.leZero : JsNumber → Bool
  | .finite q => decide (q ≤ 0)
  | .nan => false
  | .posInf => false
  | .negInf => true

/-- Truthiness of a number: `NaN`, `+0` and `-0` are falsy. -/
def JsNumber.truthy : JsNumber → Bool
  | .finite q => decide (q ≠ 0)
  | .nan => false
  | .posInf => true
  | .negInf => true

/-! ## Result envelopes -/

/-- The object literals returned by `safeExecuteQuery` and by the repository:
`{ success, data?, error?, timestamp? }`. A field that the literal does not write is `none`. -/
structure Envelope (δ : Type) where
  success : Bool
  data : Option δ := none
  error : Option JsValue := none
  timestamp : Option String := none
  deriving DecidableEq

/-! ## `BaseDatabase` -/

/-- The `_connectionStats` object (the source spells the first field `attemps`). The
counters are natural numbers, on which `++` adds one. -/
structure ConnectionStats where
  attemps : Nat
  successful : Nat
  failed : Nat
  isConnected : Bool
  lastConnectionTime : Option String
  deriving DecidableEq, Repr

/-- The statistics written by the constructor of `BaseDatabase`. -/
def BaseDatabase.constructor : ConnectionStats :=
  { attemps := 0, successful := 0, failed := 0, isConnected := false,
    lastConnectionTime := none }

/-- `_updateConnectionStats(success)`; `now` is what `new Date()` returns. -/
def BaseDatabase._updateConnectionStats (stats : ConnectionStats) (success : Bool)
    (now : String) : ConnectionStats :=
  let stats := { stats with attemps := stats.attemps + 1 }
  if success then
    { stats with
      successful := stats.successful + 1
      isConnected := true
      lastConnectionTime := some now }
  else
    { stats with
      failed := stats.failed + 1
      isConnected := false }

/-- The type of `executeQuery(sql, params)`; `params` is `none` when the caller passes
no second argument. -/
abbrev ExecuteQuery (δ : Type) := String → Option (List JsValue) → Except JsValue δ

/-- `safeExecuteQuery(sql, params)` of `BaseDatabase`, over the `executeQuery` of the
subclass; `now` is what `new Date().toISOString()` returns. The `catch` clause receives
whatever value was thrown and reads its `message`, which may raise in its turn. -/
def BaseDatabase.safeExecuteQuery {δ : Type} (objects : Nat → Except JsValue JsValue)
    (executeQuery : ExecuteQuery δ) (now : String) (sql : String)
    (params : Option (List JsValue)) : Except JsValue (Envelope δ) :=
  tryCatch
    (do
      let result ← executeQuery sql params
      return { success := true, data := some result, timestamp := some now })
    (fun error => do
      let message ← error.message objects
      return { success := false, error := some message, timestamp := some now })

/-! ## Strings -/

/-- The code points matched by `\s` and removed by `trim`: the ECMAScript `WhiteSpace`
and `LineTerminator` productions. -/
def isWhiteSpace (c : Char) : Bool :=
  c.toNat ∈ [0x09, 0x0A, 0x0B, 0x0C, 0x0D, 0x20, 0xA0, 0x1680, 0x2028, 0x2029, 0x202F,
    0x205F, 0x3000, 0xFEFF] || (0x2000 ≤ c.toNat && c.toNat ≤ 0x200A)

/-- `String.prototype.trim` on the list of code points. -/
def trimChars (cs : List Char) : List Char :=
  ((cs.dropWhile isWhiteSpace).reverse.dropWhile isWhiteSpace).reverse

/-- `String.prototype.trim`. -/
def trim (s : String) : String := ⟨trimChars s.data⟩

/-- The `length` of a string: its number of UTF-16 code units, two for each code point
above `0xFFFF`. -/
def length (s : String) : Nat :=
  (s.data.map fun c => if c.toNat < 0x10000 then 1 else 2).sum

/-- The lower-case image of an ASCII code point. -/
def asciiLower (c : Char) : Char :=
  if 'A' ≤ c ∧ c ≤ 'Z' then Char.ofNat (c.toNat + 32) else c

/-- `String.prototype.toLowerCase`. On a string of ASCII code points it maps `A`..`Z` to
`a`..`z`; on any other string it is the host's Unicode case mapping, `unicodeLower`. -/
def toLowerCase (unicodeLower : String → String) (s : String) : String :=
  if s.data.all (fun c => c.toNat < 128) then ⟨s.data.map asciiLower⟩ else unicodeLower s

/-! ## Regular expressions -/

/-- A member of a character class. -/
inductive ClassItem where
  | whitespace
  | char (c : Char)
  deriving DecidableEq

/-- One member of a class matches a code point. -/
def ClassItem.test : ClassItem → Char → Bool
  | .whitespace, c => isWhiteSpace c
  | .char d, c => c == d

/-- An atom: a literal character or a negated class `[^...]`. -/
inductive Atom where
  | lit (c : Char)
  | negClass (items : List ClassItem)
  deriving DecidableEq

/-- An atom matches a code point. -/
def Atom.test : Atom → Char → Bool
  | .lit d, c => c == d
  | .negClass items, c => !items.any (fun i => i.test c)

/-- A term of a pattern: an atom, or an atom under `+`. -/
inductive Term where
  | one (a : Atom)
  | plus (a : Atom)
  deriving DecidableEq

/-- A pattern without flags: a sequence of terms, with `^` in front and `$` behind or not. -/
structure RegExp where
  anchoredStart : Bool
  terms : List Term
  anchoredEnd : Bool

/-- Backtracking match of a sequence of terms at the head of the input. With `toEnd` the
match has to consume the input up to its end, as under `$`. -/
def matchTerms (toEnd : Bool) : List Term → List Char → Bool
  | [], [] => true
  | [], _ :: _ => !toEnd
  | _ :: _, [] => false
  | .one a :: ts, c :: cs => a.test c && matchTerms toEnd ts cs
  | .plus a :: ts, c :: cs =>
    a.test c && (matchTerms toEnd (.plus a :: ts) cs || matchTerms toEnd ts cs)

/-- `RegExp.prototype.test`: is there a position of the input at which the pattern matches?
Under `^` the only position is the start. -/
def RegExp.test (r : RegExp) (s : String) : Bool :=
  if r.anchoredStart then matchTerms r.anchoredEnd r.terms s.data
  else s.data.tails.any (matchTerms r.anchoredEnd r.terms)

/-! ## `UserRepository` -/

/-- One invocation of `db.safeExecuteQuery`. -/
structure Call where
  sql : String
  params : Option (List JsValue)
  deriving DecidableEq

/-- The `db` dependency of the repository: an object with a `safeExecuteQuery` method. -/
structure Db (δ : Type) where
  safeExecuteQuery : String → Option (List JsValue) → Except JsValue (Envelope δ)

/-- What a repository operation does: the value its promise settles with, and the
invocations of `db.safeExecuteQuery` it made, in order. -/
structure Outcome (δ : Type) where
  result : Except JsValue (Envelope δ)
  calls : List Call

/-- The repository returns an object literal without touching the database. -/
def Outcome.literal {δ : Type} (env : Envelope δ) : Outcome δ :=
  { result := .ok env, calls := [] }

/-- The repository returns `this.db.safeExecuteQuery(sql, params)`. -/
def Outcome.delegate {δ : Type} (db : Db δ) (sql : String) (params : Option (List JsValue)) :
    Outcome δ :=
  { result := db.safeExecuteQuery sql params, calls := [{ sql := sql, params := params }] }

/-- `getAll()`. -/
def UserRepository.getAll {δ : Type} (db : Db δ) : Outcome δ :=
  Outcome.delegate db "SELECT * FROM users ORDER BY id" none

/-- The guard of `getById`, `!Number.isInteger(id) || id <= 0`. The right operand is
evaluated only when `id` is an integral number. -/
def UserRepository.getById.invalid (id : JsValue) : Bool :=
  !Number.isInteger id ||
    match id with
    | .number x => x.leZero
    | _ => false

/-- `getById(id)`. -/
def UserRepository.getById {δ : Type} (db : Db δ) (id : JsValue) : Outcome δ :=
  if UserRepository.getById.invalid id then
    Outcome.literal
      { success := false, error := some (.string "Invalid user id (must be positive integer)") }
  else
    Outcome.delegate db "SELECT * FROM users WHERE id = $1" (some [id])

/-- The properties that the parameter pattern `{ name, email }` of `create` reads; a
missing property is `undefined`. -/
structure CreateInput where
  name : JsValue
  email : JsValue

/-- The argument of `create`, as the parameter pattern sees it: `undefined` (also when no
argument is passed) and `null` cannot be destructured; of any other value the pattern
reads the two properties, unless a getter of the value raises while it is read. -/
inductive CreateArgument where
  | undefined
  | null
  | properties (input : CreateInput)
  | raising (thrown : JsValue)

/-- The pattern `/^[^\s@]+@[^\s@]+\.[^\s@]+$/`. -/
def emailRegex : RegExp :=
  { anchoredStart := true
    terms :=
      [ .plus (.negClass [.whitespace, .char '@']), .one (.lit '@'),
        .plus (.negClass [.whitespace, .char '@']), .one (.lit '.'),
        .plus (.negClass [.whitespace, .char '@']) ]
    anchoredEnd := true }

/-- The body of `create`, on the properties read by the parameter pattern. -/
def UserRepository.create.body {δ : Type} (unicodeLower : String → String) (db : Db δ)
    (input : CreateInput) : Outcome δ :=
  match input.name with
  | .string name =>
    if length (trim name) < 2 then
      Outcome.literal
        { success := false, error := some (.string "Invalid name (min 2 chars)") }
    else
      match input.email with
      | .string email =>
        if !emailRegex.test email then
          Outcome.literal { success := false, error := some (.string "Invalid email format") }
        else
          Outcome.delegate db "INSERT INTO users (name, email) VALUES ($1, $2) RETURNING *"
            (some [.string (trim name), .string (toLowerCase unicodeLower email)])
      | _ => Outcome.literal { success := false, error := some (.string "Invalid email format") }
  | _ =>
    Outcome.literal { success := false, error := some (.string "Invalid name (min 2 chars)") }

/-- `create({ name, email })`: the parameter is destructured, then the body runs. When the
argument cannot be destructured the promise is rejected before the body starts. -/
def UserRepository.create {δ : Type} (unicodeLower : String → String) (db : Db δ) :
    CreateArgument → Outcome δ
  | .undefined =>
    { result := throw (.typeError "cannot destructure property name of undefined")
      calls := [] }
  | .null =>
    { result := throw (.typeError "cannot destructure property name of null"), calls := [] }
  | .raising thrown => { result := throw thrown, calls := [] }
  | .properties input => UserRepository.create.body unicodeLower db input

/-- The statement of `getWithOrderStats`, a template literal that spans twelve lines. -/
def UserRepository.getWithOrderStats.sql : String :=
  "\n      SELECT \n        u.id,\n        u.name,\n        u.email,\n" ++
  "        COUNT(o.id) AS order_count,\n" ++
  "        COALESCE(SUM(o.amount), 0) AS total_spent\n" ++
  "      FROM users u\n      LEFT JOIN orders o ON u.id = o.user_id\n" ++
  "      GROUP BY u.id, u.name, u.email\n      ORDER BY u.id\n    "

/-- `getWithOrderStats()`. -/
def UserRepository.getWithOrderStats {δ : Type} (db : Db δ) : Outcome δ :=
  Outcome.delegate db UserRepository.getWithOrderStats.sql none

/-! ## `PostgresConnection` -/

/-- `process.env`: the value of a variable, `none` when the variable is not set. -/
abbrev Env := String → Option String

/-- Truthiness of `process.env[key]`: `undefined` and the empty string are falsy. -/
def truthy : Option String → Bool
  | none => false
  | some s => s != ""

/-- `String(v)` for `v` a string or `undefined`. -/
def toStr : Option String → String
  | none => "undefined"
  | some s => s

/-- The numeric value of a decimal digit. -/
def digitValue (c : Char) : Nat := c.toNat - '0'.toNat

/-- Negation of a number. -/
def JsNumber.neg : JsNumber → JsNumber
  | .finite q => .finite (-q)
  | .nan => .nan
  | .posInf => .negInf
  | .negInf => .posInf

/-- `Number.parseInt(string, 10)`: convert the argument to a string, skip leading white
space, read an optional sign and then the longest run of decimal digits; `NaN` when that
run is empty. A value of the digits below `2 ^ 53` is a number as it stands; for a larger
one the result is the number the engine makes of it, `toNumber`: a double near it, or
`Infinity`. -/
def Number.parseInt (toNumber : Nat → JsNumber) (string : Option String) : JsNumber :=
  let inputString := toStr string
  let s := inputString.data.dropWhile isWhiteSpace
  let signed : Bool × List Char :=
    match s with
    | '-' :: r => (true, r)
    | '+' :: r => (false, r)
    | _ => (false, s)
  let z := signed.2.takeWhile Char.isDigit
  if z.isEmpty then .nan
  else
    let mathInt : Nat := z.foldl (fun acc c => 10 * acc + digitValue c) 0
    let number : JsNumber := if mathInt < 2 ^ 53 then .finite (mathInt : ℚ) else toNumber mathInt
    if signed.1 then number.neg else number

/-- The configuration object handed to the pool. -/
structure Config where
  user : String
  host : String
  database : String
  password : String
  port : JsNumber
  deriving DecidableEq

/-- The variables `_loadEnvConfig` requires. -/
def PostgresConnection._loadEnvConfig.required : List String :=
  ["POSTGRES_USER", "POSTGRES_PASSWORD", "POSTGRES_DB"]

/-- The list `missing` of `_loadEnvConfig`: `required.filter((key) => !process.env[key])`. -/
def PostgresConnection._loadEnvConfig.missing (env : Env) : List String :=
  PostgresConnection._loadEnvConfig.required.filter fun key => !truthy (env key)

/-- `_loadEnvConfig()`. -/
def PostgresConnection._loadEnvConfig (toNumber : Nat → JsNumber) (env : Env) :
    Except JsError Config :=
  let missing := PostgresConnection._loadEnvConfig.missing env
  if missing.length > 0 then
    throw ⟨"[PostgresConnection] Missing env variables: " ++ ", ".intercalate missing⟩
  else
    let port := Number.parseInt toNumber (env "POSTGRES_PORT")
    pure
      { user := toStr (env "POSTGRES_USER")
        host := toStr (if truthy (env "POSTGRES_HOST") then env "POSTGRES_HOST"
                       else some "localhost")
        database := toStr (env "POSTGRES_DB")
        password := toStr (env "POSTGRES_PASSWORD")
        port := if port.truthy then port else .finite 5432 }

/-- The pool of the `pg` library, opaque but for the configuration it was built from. -/
structure Pool where
  config : Config
  deriving DecidableEq

/-- A client checked out of the pool. -/
structure Client where
  id : Nat
  deriving DecidableEq

/-- The fields of a `PostgresConnection`: `_connectionStats` from `BaseDatabase`, then its
own. -/
structure PostgresConnection where
  _connectionStats : ConnectionStats
  _config : Config
  _pool : Option Pool
  _isInitialized : Bool
  deriving DecidableEq

/-- `_initializePool()`; `newPool` is what `new Pool(config)` does. -/
def PostgresConnection._initializePool (newPool : Config → Except JsError Pool)
    (self : PostgresConnection) : Except JsError PostgresConnection :=
  match newPool self._config with
  | .ok pool => pure { self with _pool := some pool, _isInitialized := true }
  | .error err =>
    throw ⟨"[PostgresConnection]: failed to initialize pool: " ++ err.message⟩

/-- `new PostgresConnection(config)`; `config` is `none` for `null` or no argument. The
call `super()` passes the guard of `BaseDatabase`, which rejects only `new BaseDatabase()`,
and writes the initial statistics. -/
def PostgresConnection.constructor (toNumber : Nat → JsNumber) (env : Env)
    (newPool : Config → Except JsError Pool) (config : Option Config) :
    Except JsError PostgresConnection := do
  let stats := BaseDatabase.constructor
  let config ←
    match config with
    | some c => pure c
    | none => PostgresConnection._loadEnvConfig toNumber env
  PostgresConnection._initializePool newPool
    { _connectionStats := stats, _config := config, _pool := none, _isInitialized := false }

/-- The handler registered on the pool's `error` event. -/
def PostgresConnection.onPoolError (self : PostgresConnection) (_err : JsError)
    (now : String) : PostgresConnection :=
  { self with
    _connectionStats := BaseDatabase._updateConnectionStats self._connectionStats false now }

/-- `connect()`; `poolConnect` is what `this._pool.connect()` settles with. The first
component is what the call returns or raises, the second the object afterwards. -/
def PostgresConnection.connect (self : PostgresConnection)
    (poolConnect : Except JsError Client) (now : String) :
    Except JsError Client × PostgresConnection :=
  if !self._isInitialized then
    (throw ⟨"[PostgresConnection]: connect: pool is not initialized"⟩, self)
  else
    match poolConnect with
    | .ok client =>
      (pure client,
        { self with
          _connectionStats :=
            BaseDatabase._updateConnectionStats self._connectionStats true now })
    | .error err =>
      (throw err,
        { self with
          _connectionStats :=
            BaseDatabase._updateConnectionStats self._connectionStats false now })

/-- `disconnect()`; `poolEnd` is what `this._pool.end()` settles with. -/
def PostgresConnection.disconnect (self : PostgresConnection)
    (poolEnd : Except JsError Unit) (now : String) :
    Except JsError Unit × PostgresConnection :=
  match self._pool with
  | none => (pure (), self)
  | some _ =>
    match poolEnd with
    | .ok _ =>
      (pure (),
        { self with
          _isInitialized := false
          _connectionStats :=
            BaseDatabase._updateConnectionStats self._connectionStats false now })
    | .error err => (throw err, self)

/-- `executeQuery(sql, params = [])`; `poolQuery` is `this._pool.query`. -/
def PostgresConnection.executeQuery {δ : Type} (self : PostgresConnection)
    (poolQuery : String → List JsValue → Except JsValue δ) : ExecuteQuery δ :=
  fun sql params =>
    if !self._isInitialized then
      throw (.error ⟨"[PostgresConnection] executeQuery: pool is not initialized"⟩)
    else
      poolQuery sql (params.getD [])

/-- The getter `connectionStats`: a shallow copy of the statistics, whose
`lastConnectionTime` is here the instant itself and not the `Date` object that holds it. -/
def PostgresConnection.connectionStats (self : PostgresConnection) : ConnectionStats :=
  { self._connectionStats with }

/-- What can happen to a connection object after its construction. -/
inductive Event where
  | connect (poolConnect : Except JsError Client) (now : String)
  | disconnect (poolEnd : Except JsError Unit) (now : String)
  | poolError (err : JsError) (now : String)
  | readStats

/-- The object after one event. -/
def PostgresConnection.step (self : PostgresConnection) : Event → PostgresConnection
  | .connect poolConnect now => (self.connect poolConnect now).2
  | .disconnect poolEnd now => (self.disconnect poolEnd now).2
  | .poolError err now => self.onPoolError err now
  | .readStats => let _ := self.connectionStats; self

/-- The object after a sequence of events. -/
def PostgresConnection.run (self : PostgresConnection) (events : List Event) :
    PostgresConnection :=
  events.foldl PostgresConnection.step self

/-- The object `db` that a subclass of `BaseDatabase` is to the repository: its
`safeExecuteQuery` is the inherited one, over the `executeQuery` of the subclass. -/
def BaseDatabase.asDb {δ : Type} (objects : Nat → Except JsValue JsValue)
    (executeQuery : ExecuteQuery δ) (now : String) : Db δ :=
  { safeExecuteQuery := BaseDatabase.safeExecuteQuery objects executeQuery now }

/-- The operations of the repository with their arguments. -/
inductive Operation where
  | getAll
  | getById (id : JsValue)
  | create (argument : CreateArgument)
  | getWithOrderStats

/-- Perform an operation of the repository. -/
def UserRepository.perform {δ : Type} (unicodeLower : String → String) (db : Db δ) :
    Operation → Outcome δ
  | .getAll => UserRepository.getAll db
  | .getById id => UserRepository.getById db id
  | .create argument => UserRepository.create unicodeLower db argument
  | .getWithOrderStats => UserRepository.getWithOrderStats db

/-! ## The words of the specification -/

/-- A positive integer: a number whose value is an integer greater than zero. -/
def IsPositiveInteger (v : JsValue) : Prop :=
  ∃ n : ℤ, 0 < n ∧ v = .number (.finite (n : ℚ))

/-- The uniform envelope: a success carries data and a timestamp, a failure carries an
error message and a timestamp. -/
def UniformEnvelope {δ : Type} (r : Except JsValue (Envelope δ)) : Prop :=
  ∃ env, r = .ok env ∧ env.timestamp.isSome = true ∧
    (env.success = true → env.data.isSome = true) ∧
    (env.success = false → env.error.isSome = true)

/-- Every failure that `executeQuery` raises has a `message` that can be read: it is not
`null`, not `undefined`, and not an object whose getter for `message` raises. -/
def ReadableFailures {δ : Type} (objects : Nat → Except JsValue JsValue)
    (executeQuery : ExecuteQuery δ) : Prop :=
  ∀ sql params t, executeQuery sql params = .error t → ∃ m, t.message objects = .ok m

/-- The argument of the operation can be destructured: it is not `create()` or
`create(null)`, and no getter raises while `name` and `email` are read. -/
def Operation.destructurable : Operation → Bool
  | .create (.properties _) => true
  | .create _ => false
  | _ => true

/-- The shape of an accepted email: no white space, exactly one `@`, a non-empty part
before the `@`, and after the `@` a part with a `.` that is neither its first nor its last
character. -/
def EmailShape (e : String) : Prop :=
  (∀ c ∈ e.data, isWhiteSpace c = false) ∧ e.data.count '@' = 1 ∧
    ∃ before after, e.data = before ++ '@' :: after ∧ before ≠ [] ∧
      ∃ b c, after = b ++ '.' :: c ∧ b ≠ [] ∧ c ≠ []

/-- A failure recorded in the statistics: one more attempt, one more failure, and not
connected. -/
def RecordedFailure (before after : ConnectionStats) : Prop :=
  after.attemps = before.attemps + 1 ∧ after.failed = before.failed + 1 ∧
    after.isConnected = false

/-! ## Sample objects -/

/-- A heap on which no object has a `message`. -/
def noMessage : Nat → Except JsValue JsValue := fun _ => pure .undefined

/-- A database whose every query returns one row, at a fixed instant. -/
def sampleDb : Db (List String) :=
  BaseDatabase.asDb noMessage (fun _ _ => .ok ["row"]) "2024-01-01T00:00:00.000Z"

/-- An engine that makes `Infinity` of every integer it does not keep as it stands. -/
def overflowing : Nat → JsNumber := fun _ => .posInf

/-- A process environment given by the list of its variables. -/
def envOf (kvs : List (String × String)) : Env :=
  fun key => (kvs.find? fun kv => kv.1 == key).map fun kv => kv.2

/-- A configuration written by hand. -/
def sampleConfig : Config :=
  { user := "u", host := "localhost", database := "d", password := "p", port := .finite 5432 }

/-- A connection as its constructor leaves it. -/
def sampleConnection : PostgresConnection :=
  { _connectionStats := BaseDatabase.constructor
    _config := sampleConfig
    _pool := some { config := sampleConfig }
    _isInitialized := true }

/-- C1, as stated, fails: when `executeQuery` raises `null`, reading `error.message` in
the `catch` clause raises, and `safeExecuteQuery` returns no envelope. -/
theorem safeExecuteQuery_raises_on_thrown_null :
    ¬ ∃ env : Envelope (List String),
      BaseDatabase.safeExecuteQuery noMessage (fun _ _ => throw .null) "t" "SELECT 1" none =
        .ok env := by
  rintro ⟨env, h⟩
  have hraise : BaseDatabase.safeExecuteQuery noMessage
      (fun _ _ => (throw .null : Except JsValue (List String))) "t" "SELECT 1" none =
      .error (.typeError "cannot read property message of null") := by
    decide
  rw [hraise] at h
  cases h

/-- C1, amended: when `executeQuery` returns `r`, `safeExecuteQuery` returns the envelope
with `success = true` and `data = r`. When `executeQuery` raises a failure whose `message`
can be read (an `Error` object, and any value but `null`, `undefined` and an object whose
getter raises), `safeExecuteQuery` does not raise and returns the envelope with
`success = false` and `error` equal to that message. Both envelopes carry a timestamp. When
reading the message raises, as it does on `null` and `undefined` with a `TypeError`,
`safeExecuteQuery` raises the same. -/
theorem safeExecuteQuery_envelope {δ : Type} (objects : Nat → Except JsValue JsValue)
    (executeQuery : ExecuteQuery δ) (now sql : String) (params : Option (List JsValue)) :
    (∀ r, executeQuery sql params = .ok r →
      BaseDatabase.safeExecuteQuery objects executeQuery now sql params =
        .ok { success := true, data := some r, timestamp := some now }) ∧
    (∀ t m, executeQuery sql params = .error t → t.message objects = .ok m →
      BaseDatabase.safeExecuteQuery objects executeQuery now sql params =
        .ok { success := false, error := some m, timestamp := some now }) ∧
    (∀ e : JsError, executeQuery sql params = .error (.error e) →
      BaseDatabase.safeExecuteQuery objects executeQuery now sql params =
        .ok { success := false, error := some (.string e.message), timestamp := some now }) ∧
    (∀ t, executeQuery sql params = .error t → t ≠ .null → t ≠ .undefined →
      (∀ ref, t = .object ref → ∃ m, objects ref = .ok m) →
      ∃ m, t.message objects = .ok m ∧
        BaseDatabase.safeExecuteQuery objects executeQuery now sql params =
          .ok { success := false, error := some m, timestamp := some now }) ∧
    (∀ t x, executeQuery sql params = .error t → t.message objects = .error x →
      BaseDatabase.safeExecuteQuery objects executeQuery now sql params = .error x) ∧
    (∀ t, executeQuery sql params = .error t → t = .null ∨ t = .undefined →
      ∃ detail, BaseDatabase.safeExecuteQuery objects executeQuery now sql params =
        .error (.typeError detail)) := by
  have hok : ∀ t m, executeQuery sql params = .error t → t.message objects = .ok m →
      BaseDatabase.safeExecuteQuery objects executeQuery now sql params =
        .ok { success := false, error := some m, timestamp := some now } := by
    intro t m ht hm
    simp [BaseDatabase.safeExecuteQuery, ht, hm, tryCatch, tryCatchThe,
      MonadExceptOf.tryCatch, Except.tryCatch, bind, Except.bind, pure, Except.pure]
  have herr : ∀ t x, executeQuery sql params = .error t → t.message objects = .error x →
      BaseDatabase.safeExecuteQuery objects executeQuery now sql params = .error x := by
    intro t x ht hx
    simp [BaseDatabase.safeExecuteQuery, ht, hx, tryCatch, tryCatchThe,
      MonadExceptOf.tryCatch, Except.tryCatch, bind, Except.bind]
  refine ⟨?_, hok, ?_, ?_, herr, ?_⟩
  · intro r hr
    simp [BaseDatabase.safeExecuteQuery, hr, tryCatch, tryCatchThe,
      MonadExceptOf.tryCatch, Except.tryCatch, bind, Except.bind, pure, Except.pure]
  · intro e he
    exact hok _ _ he rfl
  · intro t ht hnull hundef hobj
    have hm : ∃ m, t.message objects = .ok m := by
      cases t with
      | undefined => exact absurd rfl hundef
      | null => exact absurd rfl hnull
      | object ref => exact hobj ref rfl
      | _ => exact ⟨_, rfl⟩
    obtain ⟨m, hm⟩ := hm
    exact ⟨m, hm, hok t m ht hm⟩
  · intro t ht hnullish
    rcases hnullish with rfl | rfl
    · exact ⟨_, herr _ _ ht rfl⟩
    · exact ⟨_, herr _ _ ht rfl⟩

/-- Witness of C1 as amended, on `PostgresConnection`: a query that the pool answers gives
a success envelope with the rows; a query after `disconnect()`, which `executeQuery`
refuses with an `Error`, gives a failure envelope with the message of the refusal; a
rejection of the pool with the string "boom" gives a failure envelope whose `error` is
`undefined`. -/
theorem safeExecuteQuery_envelope_witness :
    BaseDatabase.safeExecuteQuery noMessage
        (sampleConnection.executeQuery fun _ _ => .ok ["row"]) "t" "SELECT NOW()" none =
      .ok { success := true, data := some ["row"], timestamp := some "t" } ∧
    BaseDatabase.safeExecuteQuery noMessage
        ((sampleConnection.disconnect (.ok ()) "t0").2.executeQuery
          fun _ _ => (.ok ["row"] : Except JsValue (List String)))
        "t" "SELECT NOW()" none =
      .ok { success := false,
            error := some (.string "[PostgresConnection] executeQuery: pool is not initialized"),
            timestamp := some "t" } ∧
    (∃ m, (JsValue.string "boom").message noMessage = .ok m ∧
      BaseDatabase.safeExecuteQuery noMessage
          (sampleConnection.executeQuery fun _ _ =>
            (.error (.string "boom") : Except JsValue (List String)))
          "t" "SELECT NOW()" none =
        .ok { success := false, error := some m, timestamp := some "t" }) :=
  ⟨(safeExecuteQuery_envelope noMessage
        (sampleConnection.executeQuery fun _ _ => .ok ["row"]) "t" "SELECT NOW()" none).1
      ["row"] (by decide),
    (safeExecuteQuery_envelope noMessage
        ((sampleConnection.disconnect (.ok ()) "t0").2.executeQuery
          fun _ _ => (.ok ["row"] : Except JsValue (List String)))
        "t" "SELECT NOW()" none).2.2.1
      ⟨"[PostgresConnection] executeQuery: pool is not initialized"⟩ (by decide),
    (safeExecuteQuery_envelope noMessage
        (sampleConnection.executeQuery fun _ _ =>
          (.error (.string "boom") : Except JsValue (List String)))
        "t" "SELECT NOW()" none).2.2.2.1
      (.string "boom") (by decide) (by decide) (by decide) (by intro ref h; cases h)⟩

theorem isInt_iff_exists_int (q : ℚ) : q.isInt = true ↔ ∃ n : ℤ, q = (n : ℚ) := by
  simp only [Rat.isInt, Nat.beq_eq_true_eq]
  constructor
  · intro h
    exact ⟨q.num, (Rat.coe_int_num_of_den_eq_one h).symm⟩
  · rintro ⟨n, rfl⟩
    simp

theorem getById_invalid_iff (id : JsValue) :
    UserRepository.getById.invalid id = true ↔ ¬ IsPositiveInteger id := by
  unfold IsPositiveInteger
  cases id with
  | number x =>
    cases x with
    | finite q =>
      simp only [UserRepository.getById.invalid, Number.isInteger, JsNumber.leZero,
        Bool.or_eq_true, Bool.not_eq_true', decide_eq_true_eq]
      constructor
      · rintro (h | h) ⟨n, hn, hq⟩
        · injection hq with hq; injection hq with hq
          have : q.isInt = true := (isInt_iff_exists_int q).2 ⟨n, hq⟩
          simp [this] at h
        · injection hq with hq; injection hq with hq
          subst hq
          have : (n : ℚ) ≤ 0 := h
          have : n ≤ 0 := by exact_mod_cast this
          omega
      · intro h
        by_cases hi : q.isInt = true
        · right
          obtain ⟨n, rfl⟩ := (isInt_iff_exists_int q).1 hi
          by_contra hpos
          apply h
          refine ⟨n, ?_, rfl⟩
          have : (0 : ℚ) < (n : ℚ) := lt_of_not_ge hpos
          exact_mod_cast this
        · left
          simpa using hi
    | nan => simp [UserRepository.getById.invalid, Number.isInteger]
    | posInf => simp [UserRepository.getById.invalid, Number.isInteger]
    | negInf => simp [UserRepository.getById.invalid, Number.isInteger]
  | _ => simp [UserRepository.getById.invalid, Number.isInteger]

/-- C2: `getById(id)` invokes the database exactly when `id` is a positive integer.
Otherwise (as for 0, -1, -5, 1.5, "abc", null) it returns the failure envelope with the
error "Invalid user id (must be positive integer)" and makes no call; when `id` is a
positive integer it returns what `db.safeExecuteQuery("SELECT * FROM users WHERE id = $1",
[id])` returns, from exactly that one call. -/
theorem getById_contract {δ : Type} (db : Db δ) (id : JsValue) :
    (¬ IsPositiveInteger id →
      (UserRepository.getById db id).result =
        .ok { success := false, error := some (.string "Invalid user id (must be positive integer)") } ∧
      (UserRepository.getById db id).calls = []) ∧
    (IsPositiveInteger id →
      (UserRepository.getById db id).result =
        db.safeExecuteQuery "SELECT * FROM users WHERE id = $1" (some [id]) ∧
      (UserRepository.getById db id).calls =
        [{ sql := "SELECT * FROM users WHERE id = $1", params := some [id] }]) ∧
    (∀ v ∈ [JsValue.number (.finite 0), .number (.finite (-1)), .number (.finite (-5)),
        .number (.finite (mkRat 3 2)), .string "abc", .null],
      ¬ IsPositiveInteger v) := by
  refine ⟨?_, ?_, ?_⟩
  · intro h
    have hinv := (getById_invalid_iff id).2 h
    simp [UserRepository.getById, hinv, Outcome.literal]
  · intro h
    have hinv : UserRepository.getById.invalid id = false := by
      cases hb : UserRepository.getById.invalid id with
      | false => rfl
      | true => exact absurd h ((getById_invalid_iff id).1 hb)
    simp [UserRepository.getById, hinv, Outcome.delegate]
  · intro v hv
    rw [← getById_invalid_iff]
    simp only [List.mem_cons, List.mem_singleton, List.not_mem_nil, or_false] at hv
    rcases hv with rfl | rfl | rfl | rfl | rfl | rfl <;> decide

/-- Witness of C2: `getById(-5)` on the sample database fails without a call, and
`getById(3)` returns what the database returns for the parameter list `[3]`. -/
theorem getById_contract_witness :
    ((UserRepository.getById sampleDb (.number (.finite (-5)))).result =
        .ok { success := false, error := some (.string "Invalid user id (must be positive integer)") } ∧
      (UserRepository.getById sampleDb (.number (.finite (-5)))).calls = []) ∧
    ((UserRepository.getById sampleDb (.number (.finite ((3 : ℤ) : ℚ)))).result =
        sampleDb.safeExecuteQuery "SELECT * FROM users WHERE id = $1"
          (some [.number (.finite ((3 : ℤ) : ℚ))]) ∧
      (UserRepository.getById sampleDb (.number (.finite ((3 : ℤ) : ℚ)))).calls =
        [{ sql := "SELECT * FROM users WHERE id = $1",
           params := some [.number (.finite ((3 : ℤ) : ℚ))] }]) :=
  ⟨(getById_contract sampleDb (.number (.finite (-5)))).1
      ((getById_invalid_iff _).1 (by decide)),
    (getById_contract sampleDb (.number (.finite ((3 : ℤ) : ℚ)))).2.1
      ⟨3, by decide, rfl⟩⟩

/-! ## `create` -/

theorem rdropWhile_append_rtakeWhile {α : Type} (p : α → Bool) (l : List α) :
    l.rdropWhile p ++ l.rtakeWhile p = l := by
  unfold List.rdropWhile List.rtakeWhile
  rw [← List.reverse_append, List.takeWhile_append_dropWhile, List.reverse_reverse]

theorem mem_rtakeWhile_imp {α : Type} (p : α → Bool) (l : List α) (x : α)
    (hx : x ∈ l.rtakeWhile p) : p x = true := by
  unfold List.rtakeWhile at hx
  exact List.mem_takeWhile_imp (List.mem_reverse.1 hx)

/-- What `trim` removes and what it leaves: the string is its trimmed form between two
runs of white space, and the trimmed form neither starts nor ends with white space. -/
theorem trimChars_spec (cs : List Char) :
    ∃ pre post, cs = pre ++ trimChars cs ++ post ∧
      (∀ c ∈ pre, isWhiteSpace c = true) ∧ (∀ c ∈ post, isWhiteSpace c = true) ∧
      ∀ h : trimChars cs ≠ [],
        isWhiteSpace ((trimChars cs).head h) = false ∧
        isWhiteSpace ((trimChars cs).getLast h) = false := by
  have htrim : trimChars cs = (cs.dropWhile isWhiteSpace).rdropWhile isWhiteSpace := rfl
  refine ⟨cs.takeWhile isWhiteSpace, (cs.dropWhile isWhiteSpace).rtakeWhile isWhiteSpace,
    ?_, ?_, ?_, ?_⟩
  · rw [htrim, List.append_assoc, rdropWhile_append_rtakeWhile,
      List.takeWhile_append_dropWhile]
  · intro c hc
    exact List.mem_takeWhile_imp hc
  · intro c hc
    exact mem_rtakeWhile_imp _ _ _ hc
  · intro h
    constructor
    · have hd : cs.dropWhile isWhiteSpace ≠ [] := by
        intro h0
        apply h
        rw [htrim, h0]
        rfl
      have hpre : trimChars cs <+: cs.dropWhile isWhiteSpace := by
        rw [htrim]; exact List.rdropWhile_prefix _ _
      obtain ⟨t, ht⟩ := hpre
      have hhead : (trimChars cs).head h = (cs.dropWhile isWhiteSpace).head hd := by
        have : (trimChars cs ++ t).head (by simp [h]) = (trimChars cs).head h :=
          List.head_append_of_ne_nil h
        rw [← this]
        congr 1
      rw [hhead]
      exact List.head_dropWhile_not _ _ _
    · have hl := List.rdropWhile_last_not isWhiteSpace (cs.dropWhile isWhiteSpace)
        (by rw [← htrim]; exact h)
      simpa [htrim] using hl

/-- C3: `create` with a name that is not a string, or whose trimmed length is below 2,
returns the failure envelope "Invalid name (min 2 chars)" whatever the email is; with a
valid name and an email that is not a string matching the pattern it returns the failure
envelope "Invalid email format"; neither case invokes `db.safeExecuteQuery`. -/
theorem create_validation_short_circuits {δ : Type} (unicodeLower : String → String)
    (db : Db δ) (input : CreateInput) :
    ((∀ s, input.name = .string s → length (trim s) < 2) →
      (UserRepository.create unicodeLower db (.properties input)).result =
        .ok { success := false, error := some (.string "Invalid name (min 2 chars)") } ∧
      (UserRepository.create unicodeLower db (.properties input)).calls = []) ∧
    ((∃ s, input.name = .string s ∧ 2 ≤ length (trim s)) →
      (∀ e, input.email = .string e → emailRegex.test e = false) →
      (UserRepository.create unicodeLower db (.properties input)).result =
        .ok { success := false, error := some (.string "Invalid email format") } ∧
      (UserRepository.create unicodeLower db (.properties input)).calls = []) := by
  obtain ⟨name, email⟩ := input
  constructor
  · intro h
    cases name with
    | string s =>
      have hs := h s rfl
      simp [UserRepository.create, UserRepository.create.body, hs, Outcome.literal]
    | _ => simp [UserRepository.create, UserRepository.create.body, Outcome.literal]
  · rintro ⟨s, hs, hlen⟩ he
    simp only at hs he
    subst hs
    have hlen' : ¬ length (trim s) < 2 := by omega
    cases email with
    | string e =>
      have hte := he e rfl
      simp [UserRepository.create, UserRepository.create.body, hlen', hte, Outcome.literal]
    | _ => simp [UserRepository.create, UserRepository.create.body, hlen', Outcome.literal]

/-- Witness of C3: `create` of the name "A" fails on the name, and `create` of the name
"Al" with the email "a@b" fails on the email, both without a call. -/
theorem create_validation_short_circuits_witness :
    ((UserRepository.create id sampleDb (.properties ⟨.string "A", .string "a@b.com"⟩)).result =
        .ok { success := false, error := some (.string "Invalid name (min 2 chars)") } ∧
      (UserRepository.create id sampleDb (.properties ⟨.string "A", .string "a@b.com"⟩)).calls = []) ∧
    ((UserRepository.create id sampleDb (.properties ⟨.string "Al", .string "a@b"⟩)).result =
        .ok { success := false, error := some (.string "Invalid email format") } ∧
      (UserRepository.create id sampleDb (.properties ⟨.string "Al", .string "a@b"⟩)).calls = []) :=
  ⟨(create_validation_short_circuits id sampleDb ⟨.string "A", .string "a@b.com"⟩).1
      (by intro s hs; injection hs with hs; subst hs; decide),
    (create_validation_short_circuits id sampleDb ⟨.string "Al", .string "a@b"⟩).2
      ⟨"Al", rfl, by decide⟩
      (by intro e he; injection he with he; subst he; decide)⟩

/-- C4: on an input that passes validation `create` invokes `db.safeExecuteQuery` exactly
once, with the `INSERT ... RETURNING *` statement and the parameters `[name.trim(),
email.toLowerCase()]`, and returns what that call returns. The first parameter is the name
without its leading and trailing white space. For the name "Al" and the email "a@b.com"
the parameters are `["Al", "a@b.com"]`. -/
theorem create_valid_delegates {δ : Type} (unicodeLower : String → String) (db : Db δ)
    (name email : String) (hname : 2 ≤ length (trim name))
    (hemail : emailRegex.test email = true) :
    (UserRepository.create unicodeLower db (.properties ⟨.string name, .string email⟩)).calls =
      [{ sql := "INSERT INTO users (name, email) VALUES ($1, $2) RETURNING *",
         params := some [.string (trim name), .string (toLowerCase unicodeLower email)] }] ∧
    (UserRepository.create unicodeLower db (.properties ⟨.string name, .string email⟩)).result =
      db.safeExecuteQuery "INSERT INTO users (name, email) VALUES ($1, $2) RETURNING *"
        (some [.string (trim name), .string (toLowerCase unicodeLower email)]) ∧
    (∃ pre post, name.data = pre ++ (trim name).data ++ post ∧
      (∀ c ∈ pre, isWhiteSpace c = true) ∧ (∀ c ∈ post, isWhiteSpace c = true) ∧
      ∀ h : (trim name).data ≠ [],
        isWhiteSpace ((trim name).data.head h) = false ∧
        isWhiteSpace ((trim name).data.getLast h) = false) ∧
    (UserRepository.create unicodeLower db (.properties ⟨.string "Al", .string "a@b.com"⟩)).calls =
      [{ sql := "INSERT INTO users (name, email) VALUES ($1, $2) RETURNING *",
         params := some [.string "Al", .string "a@b.com"] }] := by
  have hlen : ¬ length (trim name) < 2 := by omega
  refine ⟨?_, ?_, trimChars_spec name.data, ?_⟩
  · simp [UserRepository.create, UserRepository.create.body, hlen, hemail, Outcome.delegate]
  · simp [UserRepository.create, UserRepository.create.body, hlen, hemail, Outcome.delegate]
  · rfl

/-- Witness of C4: the name " Al " and the email "A@B.com" reach the database as "Al" and
"a@b.com". -/
theorem create_valid_delegates_witness :
    (UserRepository.create id sampleDb (.properties ⟨.string " Al ", .string "A@B.com"⟩)).calls =
      [{ sql := "INSERT INTO users (name, email) VALUES ($1, $2) RETURNING *",
         params := some [.string "Al", .string "a@b.com"] }] :=
  (create_valid_delegates id sampleDb " Al " "A@B.com" (by decide) (by decide)).1

/-! ## The shape of the envelopes -/

theorem delegate_shape {δ : Type} (objects : Nat → Except JsValue JsValue)
    (executeQuery : ExecuteQuery δ) (now sql : String) (params : Option (List JsValue))
    (hread : ReadableFailures objects executeQuery) :
    ∃ env : Envelope δ,
      (Outcome.delegate (BaseDatabase.asDb objects executeQuery now) sql params).result =
        .ok env ∧
      (env.success = true → env.data.isSome = true ∧ env.timestamp = some now) ∧
      (env.success = false → env.error.isSome = true) ∧
      ((∀ sql params t, executeQuery sql params = .error t → ∃ e, t = .error e) →
        env.success = false → ∃ msg : String, env.error = some (.string msg)) ∧
      (if (Outcome.delegate (BaseDatabase.asDb objects executeQuery now) sql params).calls = []
        then env.success = false ∧ env.timestamp = none ∧
          ∃ msg : String, env.error = some (.string msg)
        else env.timestamp = some now) := by
  have hcalls : (Outcome.delegate (BaseDatabase.asDb objects executeQuery now) sql
      params).calls ≠ [] := by simp [Outcome.delegate]
  simp only [hcalls, if_false]
  have hres : (Outcome.delegate (BaseDatabase.asDb objects executeQuery now) sql
      params).result = BaseDatabase.safeExecuteQuery objects executeQuery now sql params := rfl
  rw [hres]
  cases h : executeQuery sql params with
  | ok r =>
    refine ⟨{ success := true, data := some r, timestamp := some now }, ?_,
      fun _ => ⟨rfl, rfl⟩, fun hs => (by cases hs), fun _ hs => (by cases hs), rfl⟩
    simp [BaseDatabase.safeExecuteQuery, h, tryCatch, tryCatchThe,
      MonadExceptOf.tryCatch, Except.tryCatch, bind, Except.bind, pure, Except.pure]
  | error t =>
    obtain ⟨m, hm⟩ := hread sql params t h
    refine ⟨{ success := false, error := some m, timestamp := some now }, ?_,
      fun hs => (by cases hs), fun _ => rfl, ?_, rfl⟩
    · simp [BaseDatabase.safeExecuteQuery, h, hm, tryCatch, tryCatchThe,
        MonadExceptOf.tryCatch, Except.tryCatch, bind, Except.bind, pure, Except.pure]
    · intro herrors _
      obtain ⟨e, rfl⟩ := herrors sql params t h
      refine ⟨e.message, ?_⟩
      have : (JsValue.error e).message objects = .ok (.string e.message) := rfl
      rw [this] at hm
      cases hm
      rfl

theorem literal_shape {δ : Type} (P : Prop) (now msg : String) :
    ∃ env : Envelope δ,
      (Outcome.literal ({ success := false, error := some (.string msg) } : Envelope δ)).result =
        .ok env ∧
      (env.success = true → env.data.isSome = true ∧ env.timestamp = some now) ∧
      (env.success = false → env.error.isSome = true) ∧
      (P → env.success = false → ∃ msg : String, env.error = some (.string msg)) ∧
      (if (Outcome.literal
            ({ success := false, error := some (.string msg) } : Envelope δ)).calls = []
        then env.success = false ∧ env.timestamp = none ∧
          ∃ msg : String, env.error = some (.string msg)
        else env.timestamp = some now) :=
  ⟨_, rfl, fun h => (by cases h), fun _ => rfl, fun _ _ => ⟨msg, rfl⟩,
    by simp [Outcome.literal]⟩

/-- C6, as stated, fails: the envelope that `getById(-5)` returns has no timestamp. -/
theorem getById_envelope_not_uniform :
    ¬ UniformEnvelope (UserRepository.getById sampleDb (.number (.finite (-5)))).result := by
  rintro ⟨env, henv, hts, -, -⟩
  have h : (UserRepository.getById sampleDb (.number (.finite (-5)))).result =
      .ok { success := false,
            error := some (.string "Invalid user id (must be positive integer)") } := by
    decide
  rw [h] at henv
  injection henv with henv
  subst henv
  simp at hts

/-- C6, amended: over a `BaseDatabase` whose `executeQuery` raises only failures with a
readable message, every operation of the repository on an argument that can be
destructured returns an envelope. A success carries data and the timestamp; a failure
carries an error, which is a message string when the failures of `executeQuery` are `Error`
objects. The envelope carries the timestamp exactly when the operation invoked
`db.safeExecuteQuery`; an operation that did not invoke it (a validation failure of
`getById` or `create`) returns a failure envelope with a message string and without a
timestamp. `create()` and `create(null)` return no envelope: they reject with a
`TypeError` before the body runs, without a call. -/
theorem perform_envelope_shape {δ : Type} (unicodeLower : String → String)
    (objects : Nat → Except JsValue JsValue) (executeQuery : ExecuteQuery δ) (now : String)
    (op : Operation) (hop : op.destructurable = true)
    (hread : ReadableFailures objects executeQuery) :
    (∃ env : Envelope δ,
      (UserRepository.perform unicodeLower (BaseDatabase.asDb objects executeQuery now)
        op).result = .ok env ∧
      (env.success = true → env.data.isSome = true ∧ env.timestamp = some now) ∧
      (env.success = false → env.error.isSome = true) ∧
      ((∀ sql params t, executeQuery sql params = .error t → ∃ e, t = .error e) →
        env.success = false → ∃ msg : String, env.error = some (.string msg)) ∧
      (if (UserRepository.perform unicodeLower (BaseDatabase.asDb objects executeQuery now)
            op).calls = []
        then env.success = false ∧ env.timestamp = none ∧
          ∃ msg : String, env.error = some (.string msg)
        else env.timestamp = some now)) ∧
    (∀ argument ∈ [CreateArgument.undefined, CreateArgument.null],
      (∃ detail, (UserRepository.perform unicodeLower
          (BaseDatabase.asDb objects executeQuery now) (.create argument)).result =
            .error (.typeError detail)) ∧
      (UserRepository.perform unicodeLower (BaseDatabase.asDb objects executeQuery now)
        (.create argument)).calls = []) := by
  constructor
  · cases op with
    | getAll => exact delegate_shape objects executeQuery now _ _ hread
    | getWithOrderStats => exact delegate_shape objects executeQuery now _ _ hread
    | getById id =>
      simp only [UserRepository.perform, UserRepository.getById]
      split
      · exact literal_shape _ now _
      · exact delegate_shape objects executeQuery now _ _ hread
    | create argument =>
      cases argument with
      | undefined => simp [Operation.destructurable] at hop
      | null => simp [Operation.destructurable] at hop
      | raising thrown => simp [Operation.destructurable] at hop
      | properties input =>
        obtain ⟨name, email⟩ := input
        simp only [UserRepository.perform, UserRepository.create,
          UserRepository.create.body]
        split
        · split
          · exact literal_shape _ now _
          · split
            · split
              · exact literal_shape _ now _
              · exact delegate_shape objects executeQuery now _ _ hread
            · exact literal_shape _ now _
        · exact literal_shape _ now _
  · intro argument harg
    simp only [List.mem_cons, List.mem_singleton, List.not_mem_nil, or_false] at harg
    rcases harg with rfl | rfl
    · exact ⟨⟨_, rfl⟩, rfl⟩
    · exact ⟨⟨_, rfl⟩, rfl⟩

/-- Witness of C6 as amended, over a database whose every query is rejected with an
`Error`: `getAll()` returns a failure envelope with the message and the timestamp. -/
theorem perform_envelope_shape_witness :
    ∃ env : Envelope (List String),
      (UserRepository.perform id
        (BaseDatabase.asDb noMessage (fun _ _ => .error (.error ⟨"relation missing"⟩)) "t")
        .getAll).result = .ok env ∧
      env.success = false ∧ env.error = some (.string "relation missing") ∧
      env.timestamp = some "t" := by
  obtain ⟨env, henv, -, -, -, hts⟩ :=
    (perform_envelope_shape id noMessage
      (fun _ _ => (.error (.error ⟨"relation missing"⟩) : Except JsValue (List String)))
      "t" .getAll (by decide)
      (by
        intro sql params t ht
        injection ht with ht
        subst ht
        exact ⟨_, rfl⟩)).1
  have hval : (UserRepository.perform id
      (BaseDatabase.asDb noMessage
        (fun _ _ => (.error (.error ⟨"relation missing"⟩) : Except JsValue (List String)))
        "t") .getAll).result =
      .ok { success := false, error := some (.string "relation missing"),
            timestamp := some "t" } := by
    decide
  rw [hval] at henv
  injection henv with henv
  subst henv
  exact ⟨_, hval, rfl, rfl, rfl⟩

/-! ## The email pattern -/

theorem matchTerms_nil (l : List Char) : matchTerms true [] l = true ↔ l = [] := by
  cases l <;> simp [matchTerms]

theorem matchTerms_one (toEnd : Bool) (a : Atom) (ts : List Term) (l : List Char) :
    matchTerms toEnd (.one a :: ts) l = true ↔
      ∃ c r, l = c :: r ∧ a.test c = true ∧ matchTerms toEnd ts r = true := by
  cases l with
  | nil => simp [matchTerms]
  | cons c cs =>
    simp only [matchTerms, Bool.and_eq_true, List.cons.injEq]
    constructor
    · rintro ⟨h1, h2⟩
      exact ⟨c, cs, ⟨rfl, rfl⟩, h1, h2⟩
    · rintro ⟨d, r, ⟨rfl, rfl⟩, h1, h2⟩
      exact ⟨h1, h2⟩

theorem matchTerms_plus (toEnd : Bool) (a : Atom) (ts : List Term) (l : List Char) :
    matchTerms toEnd (.plus a :: ts) l = true ↔
      ∃ x r, l = x ++ r ∧ x ≠ [] ∧ (∀ c ∈ x, a.test c = true) ∧
        matchTerms toEnd ts r = true := by
  induction l with
  | nil =>
    simp only [matchTerms, Bool.false_eq_true, false_iff]
    rintro ⟨x, r, h, hx, -, -⟩
    cases x with
    | nil => exact hx rfl
    | cons d x => simp at h
  | cons c cs ih =>
    simp only [matchTerms, Bool.and_eq_true, Bool.or_eq_true]
    constructor
    · rintro ⟨hc, h | h⟩
      · obtain ⟨x, r, hl, -, hall, hr⟩ := ih.1 h
        refine ⟨c :: x, r, by simp [hl], by simp, ?_, hr⟩
        intro d hd
        rcases List.mem_cons.1 hd with rfl | hd
        · exact hc
        · exact hall d hd
      · exact ⟨[c], cs, rfl, by simp, by simpa using hc, h⟩
    · rintro ⟨x, r, hl, hx, hall, hr⟩
      cases x with
      | nil => exact absurd rfl hx
      | cons d x =>
        simp only [List.cons_append, List.cons.injEq] at hl
        obtain ⟨rfl, rfl⟩ := hl
        refine ⟨hall c (List.mem_cons_self _ _), ?_⟩
        by_cases hx' : x = []
        · right
          subst hx'
          simpa using hr
        · left
          exact ih.2 ⟨x, r, rfl, hx', fun e he => hall e (List.mem_cons_of_mem _ he), hr⟩

theorem negClass_test (c : Char) :
    (Atom.negClass [.whitespace, .char '@']).test c = true ↔
      isWhiteSpace c = false ∧ c ≠ '@' := by
  simp [Atom.test, ClassItem.test]

/-- The pattern accepts exactly the strings `x@y.z` with `x`, `y`, `z` non-empty and free
of white space and of `@`. -/
theorem emailRegex_test_iff (e : String) :
    emailRegex.test e = true ↔
      ∃ x y z, e.data = x ++ '@' :: (y ++ '.' :: z) ∧ x ≠ [] ∧ y ≠ [] ∧ z ≠ [] ∧
        ∀ c ∈ x ++ y ++ z, isWhiteSpace c = false ∧ c ≠ '@' := by
  simp only [RegExp.test, emailRegex, if_true]
  rw [matchTerms_plus]
  constructor
  · rintro ⟨x, r, hl, hx, hxall, hr⟩
    obtain ⟨c, r1, rfl, hc, hr1⟩ := (matchTerms_one _ _ _ _).1 hr
    obtain ⟨y, r2, rfl, hy, hyall, hr2⟩ := (matchTerms_plus _ _ _ _).1 hr1
    obtain ⟨d, r3, rfl, hd, hr3⟩ := (matchTerms_one _ _ _ _).1 hr2
    obtain ⟨z, r4, rfl, hz, hzall, hr4⟩ := (matchTerms_plus _ _ _ _).1 hr3
    have h4 : r4 = [] := (matchTerms_nil _).1 hr4
    subst h4
    have hc' : c = '@' := by simpa [Atom.test] using hc
    have hd' : d = '.' := by simpa [Atom.test] using hd
    subst hc' hd'
    refine ⟨x, y, z, by simpa using hl, hx, hy, hz, ?_⟩
    intro c hc
    simp only [List.mem_append] at hc
    rcases hc with (hc | hc) | hc
    · exact (negClass_test c).1 (hxall c hc)
    · exact (negClass_test c).1 (hyall c hc)
    · exact (negClass_test c).1 (hzall c hc)
  · rintro ⟨x, y, z, hl, hx, hy, hz, hall⟩
    refine ⟨x, '@' :: (y ++ '.' :: z), hl, hx, ?_, ?_⟩
    · intro c hc
      exact (negClass_test c).2 (hall c (by simp [hc]))
    · rw [matchTerms_one]
      refine ⟨'@', _, rfl, by simp [Atom.test], ?_⟩
      rw [matchTerms_plus]
      refine ⟨y, '.' :: z, rfl, hy, ?_, ?_⟩
      · intro c hc
        exact (negClass_test c).2 (hall c (by simp [hc]))
      · rw [matchTerms_one]
        refine ⟨'.', _, rfl, by simp [Atom.test], ?_⟩
        rw [matchTerms_plus]
        refine ⟨z, [], by simp, hz, ?_, by simp [matchTerms]⟩
        intro c hc
        exact (negClass_test c).2 (hall c (by simp [hc]))

/-- C10: the email pattern of `create` accepts a string exactly when it has no white space,
exactly one `@`, a non-empty part before the `@`, and after the `@` a part with a `.` that
is neither its first nor its last character. So "a@b..c" and "a@.b.c" are accepted, and
"a@b", "a@b.", "@b.c" and "a b@c.d" are rejected. -/
theorem emailRegex_accepts_iff_shape :
    (∀ e : String, emailRegex.test e = true ↔ EmailShape e) ∧
    emailRegex.test "a@b..c" = true ∧ emailRegex.test "a@.b.c" = true ∧
    emailRegex.test "a@b" = false ∧ emailRegex.test "a@b." = false ∧
    emailRegex.test "@b.c" = false ∧ emailRegex.test "a b@c.d" = false := by
  refine ⟨?_, by decide, by decide, by decide, by decide, by decide, by decide⟩
  intro e
  rw [emailRegex_test_iff]
  constructor
  · rintro ⟨x, y, z, hl, hx, hy, hz, hall⟩
    have hcount : ∀ w : List Char, (∀ c ∈ w, isWhiteSpace c = false ∧ c ≠ '@') →
        w.count '@' = 0 := by
      intro w hw
      rw [List.count_eq_zero]
      intro hmem
      exact (hw _ hmem).2 rfl
    refine ⟨?_, ?_, x, y ++ '.' :: z, hl, hx, y, z, rfl, hy, hz⟩
    · intro c hc
      rw [hl] at hc
      simp only [List.mem_append, List.mem_cons] at hc
      rcases hc with hc | rfl | hc | rfl | hc
      · exact (hall c (by simp [hc])).1
      · decide
      · exact (hall c (by simp [hc])).1
      · decide
      · exact (hall c (by simp [hc])).1
    · rw [hl]
      have h1 := hcount x (fun c hc => hall c (by simp [hc]))
      have h2 := hcount y (fun c hc => hall c (by simp [hc]))
      have h3 := hcount z (fun c hc => hall c (by simp [hc]))
      simp [List.count_append, List.count_cons, h1, h2, h3]
  · rintro ⟨hws, hcnt, before, after, hl, hbefore, b, c, rfl, hb, hc⟩
    rw [hl] at hcnt
    simp only [List.count_append, List.count_cons, beq_self_eq_true, if_true] at hcnt
    have hdot : (('.' : Char) == '@') = false := by decide
    simp only [hdot] at hcnt
    have h1 : before.count '@' = 0 := by omega
    have h2 : b.count '@' = 0 := by omega
    have h3 : c.count '@' = 0 := by omega
    rw [List.count_eq_zero] at h1 h2 h3
    refine ⟨before, b, c, hl, hbefore, hb, hc, ?_⟩
    intro d hd
    simp only [List.mem_append] at hd
    refine ⟨hws d (by rw [hl]; rcases hd with (hd | hd) | hd <;> simp [hd]), ?_⟩
    rintro rfl
    rcases hd with (hd | hd) | hd
    · exact h1 hd
    · exact h2 hd
    · exact h3 hd

/-! ## Connection statistics -/

theorem updateConnectionStats_balanced (stats : ConnectionStats) (success : Bool)
    (now : String) (h : stats.attemps = stats.successful + stats.failed) :
    (BaseDatabase._updateConnectionStats stats success now).attemps =
      (BaseDatabase._updateConnectionStats stats success now).successful +
        (BaseDatabase._updateConnectionStats stats success now).failed := by
  cases success <;> simp [BaseDatabase._updateConnectionStats] <;> omega

theorem step_balanced (self : PostgresConnection) (ev : Event)
    (h : self._connectionStats.attemps =
      self._connectionStats.successful + self._connectionStats.failed) :
    (self.step ev)._connectionStats.attemps =
      (self.step ev)._connectionStats.successful + (self.step ev)._connectionStats.failed := by
  cases ev with
  | connect poolConnect now =>
    simp only [PostgresConnection.step, PostgresConnection.connect]
    split
    · exact h
    · cases poolConnect <;> exact updateConnectionStats_balanced _ _ _ h
  | disconnect poolEnd now =>
    simp only [PostgresConnection.step, PostgresConnection.disconnect]
    split
    · exact h
    · cases poolEnd
      · exact h
      · exact updateConnectionStats_balanced _ _ _ h
  | poolError err now => exact updateConnectionStats_balanced _ _ _ h
  | readStats => exact h

theorem run_balanced (events : List Event) (self : PostgresConnection)
    (h : self._connectionStats.attemps =
      self._connectionStats.successful + self._connectionStats.failed) :
    (self.run events)._connectionStats.attemps =
      (self.run events)._connectionStats.successful +
        (self.run events)._connectionStats.failed := by
  induction events generalizing self with
  | nil => exact h
  | cons ev events ih => exact ih (self.step ev) (step_balanced self ev h)

theorem constructor_stats (toNumber : Nat → JsNumber) (env : Env)
    (newPool : Config → Except JsError Pool) (config : Option Config)
    (self : PostgresConnection)
    (h : PostgresConnection.constructor toNumber env newPool config = .ok self) :
    self._connectionStats = BaseDatabase.constructor := by
  unfold PostgresConnection.constructor at h
  have key : ∀ c : Config, PostgresConnection._initializePool newPool
      { _connectionStats := BaseDatabase.constructor, _config := c, _pool := none,
        _isInitialized := false } = .ok self →
      self._connectionStats = BaseDatabase.constructor := by
    intro c hc
    unfold PostgresConnection._initializePool at hc
    cases hp : newPool c with
    | error e => simp [hp, throw, throwThe, MonadExceptOf.throw] at hc
    | ok pool =>
      simp only [hp, pure, Except.pure, Except.ok.injEq] at hc
      rw [← hc]
  cases config with
  | some c => exact key c h
  | none =>
    cases hl : PostgresConnection._loadEnvConfig toNumber env with
    | error e => simp [hl, bind, Except.bind] at h
    | ok c =>
      simp only [hl, bind, Except.bind] at h
      exact key c h

/-- C5: `attemps = successful + failed` holds in every reachable state. It holds of the
statistics the constructor writes (all counters 0), every `_updateConnectionStats`
preserves it, and so it holds of what `connectionStats` reads after any finite sequence of
connects (successful or failed), disconnects, pool errors and reads on a constructed
`PostgresConnection`. -/
theorem connectionStats_attempts_balanced :
    (BaseDatabase.constructor.attemps = 0 ∧ BaseDatabase.constructor.successful = 0 ∧
      BaseDatabase.constructor.failed = 0) ∧
    (∀ (stats : ConnectionStats) (success : Bool) (now : String),
      stats.attemps = stats.successful + stats.failed →
      (BaseDatabase._updateConnectionStats stats success now).attemps =
        (BaseDatabase._updateConnectionStats stats success now).successful +
          (BaseDatabase._updateConnectionStats stats success now).failed) ∧
    (∀ (toNumber : Nat → JsNumber) (env : Env) (newPool : Config → Except JsError Pool)
      (config : Option Config) (self : PostgresConnection),
      PostgresConnection.constructor toNumber env newPool config = .ok self →
      ∀ events : List Event,
        (self.run events).connectionStats.attemps =
          (self.run events).connectionStats.successful +
            (self.run events).connectionStats.failed) := by
  refine ⟨⟨rfl, rfl, rfl⟩, updateConnectionStats_balanced, ?_⟩
  intro toNumber env newPool config self h events
  have h0 := constructor_stats toNumber env newPool config self h
  exact run_balanced events self (by rw [h0]; rfl)

/-- Witness of C5: a connection built from an explicit configuration, after a successful
connect, a failed connect, a pool error, a read and a disconnect, has counted four
attempts, one success and three failures. -/
theorem connectionStats_attempts_balanced_witness :
    PostgresConnection.constructor overflowing (envOf []) (fun c => .ok { config := c })
        (some sampleConfig) = .ok sampleConnection ∧
    (sampleConnection.run
        [.connect (.ok { id := 1 }) "t1", .connect (.error ⟨"refused"⟩) "t2",
          .poolError ⟨"idle"⟩ "t3", .readStats, .disconnect (.ok ()) "t4"]).connectionStats =
      { attemps := 4, successful := 1, failed := 3, isConnected := false,
        lastConnectionTime := some "t1" } ∧
    (sampleConnection.run
        [.connect (.ok { id := 1 }) "t1", .connect (.error ⟨"refused"⟩) "t2",
          .poolError ⟨"idle"⟩ "t3", .readStats, .disconnect (.ok ()) "t4"]).connectionStats.attemps =
      (sampleConnection.run
        [.connect (.ok { id := 1 }) "t1", .connect (.error ⟨"refused"⟩) "t2",
          .poolError ⟨"idle"⟩ "t3", .readStats,
          .disconnect (.ok ()) "t4"]).connectionStats.successful +
      (sampleConnection.run
        [.connect (.ok { id := 1 }) "t1", .connect (.error ⟨"refused"⟩) "t2",
          .poolError ⟨"idle"⟩ "t3", .readStats,
          .disconnect (.ok ()) "t4"]).connectionStats.failed :=
  ⟨by decide, by decide,
    connectionStats_attempts_balanced.2.2 overflowing (envOf [])
      (fun c => .ok { config := c })
      (some sampleConfig) sampleConnection (by decide)
      [.connect (.ok { id := 1 }) "t1", .connect (.error ⟨"refused"⟩) "t2",
        .poolError ⟨"idle"⟩ "t3", .readStats, .disconnect (.ok ()) "t4"]⟩

/-! ## Failures of `connect` and `disconnect` -/

/-- C7, as stated, fails: when closing the pool raises, `disconnect` re-raises the error
but the statistics of the connection record nothing. -/
theorem disconnect_failure_not_recorded :
    (sampleConnection.disconnect (.error ⟨"end failed"⟩) "t").1 = .error ⟨"end failed"⟩ ∧
    ¬ RecordedFailure sampleConnection._connectionStats
      (sampleConnection.disconnect (.error ⟨"end failed"⟩) "t").2._connectionStats := by
  refine ⟨by decide, ?_⟩
  rintro ⟨h, -, -⟩
  revert h
  decide

/-- C7, amended: on an initialized connection, a `connect()` whose pool acquisition raises
`e` records the failure in the statistics (one more attempt, one more failure, not
connected) and re-raises `e`; a `disconnect()` whose pool closing raises `e` re-raises `e`
and leaves the connection, its statistics included, as it was. -/
theorem connect_failure_recorded_disconnect_failure_reraised (self : PostgresConnection)
    (hinit : self._isInitialized = true) (hpool : self._pool.isSome = true)
    (e : JsError) (now : String) :
    ((self.connect (.error e) now).1 = .error e ∧
      RecordedFailure self._connectionStats (self.connect (.error e) now).2._connectionStats) ∧
    ((self.disconnect (.error e) now).1 = .error e ∧
      (self.disconnect (.error e) now).2 = self) := by
  constructor
  · simp [PostgresConnection.connect, hinit, RecordedFailure,
      BaseDatabase._updateConnectionStats, throw, throwThe, MonadExceptOf.throw]
  · cases hp : self._pool with
    | none => simp [hp] at hpool
    | some pool =>
      simp [PostgresConnection.disconnect, hp, throw, throwThe, MonadExceptOf.throw]

/-- Witness of C7 as amended, on a freshly constructed connection. -/
theorem connect_failure_recorded_disconnect_failure_reraised_witness :
    ((sampleConnection.connect (.error ⟨"refused"⟩) "t").1 = .error ⟨"refused"⟩ ∧
      RecordedFailure sampleConnection._connectionStats
        (sampleConnection.connect (.error ⟨"refused"⟩) "t").2._connectionStats) ∧
    ((sampleConnection.disconnect (.error ⟨"refused"⟩) "t").1 = .error ⟨"refused"⟩ ∧
      (sampleConnection.disconnect (.error ⟨"refused"⟩) "t").2 = sampleConnection) :=
  connect_failure_recorded_disconnect_failure_reraised sampleConnection (by decide)
    (by decide) ⟨"refused"⟩ "t"

/-! ## Configuration from the environment -/

theorem truthy_eq_false_iff (v : Option String) :
    truthy v = false ↔ v = none ∨ v = some "" := by
  cases v with
  | none => simp [truthy]
  | some s => simp [truthy]

theorem mem_missing_iff (env : Env) (k : String) :
    k ∈ PostgresConnection._loadEnvConfig.missing env ↔
      k ∈ PostgresConnection._loadEnvConfig.required ∧ (env k = none ∨ env k = some "") := by
  simp only [PostgresConnection._loadEnvConfig.missing, List.mem_filter, Bool.not_eq_true',
    truthy_eq_false_iff]

theorem loadEnvConfig_error_iff (toNumber : Nat → JsNumber) (env : Env) (e : JsError) :
    PostgresConnection._loadEnvConfig toNumber env = .error e ↔
      PostgresConnection._loadEnvConfig.missing env ≠ [] ∧
      e = ⟨"[PostgresConnection] Missing env variables: " ++
        ", ".intercalate (PostgresConnection._loadEnvConfig.missing env)⟩ := by
  unfold PostgresConnection._loadEnvConfig
  cases hm : PostgresConnection._loadEnvConfig.missing env with
  | nil => simp [pure, Except.pure]
  | cons k ks =>
    simp only [List.length_cons, gt_iff_lt, Nat.zero_lt_succ, if_true, throw, throwThe,
      MonadExceptOf.throw, Except.error.injEq, ne_eq, reduceCtorEq, not_false_eq_true,
      true_and]
    exact eq_comm

/-- C8, as stated, fails: with all three variables present and `POSTGRES_USER` set to the
empty string, loading fails, and the message lists `POSTGRES_USER`, which is present. -/
theorem loadEnvConfig_fails_on_empty_variable :
    (∀ k ∈ PostgresConnection._loadEnvConfig.required,
      (envOf [("POSTGRES_USER", ""), ("POSTGRES_PASSWORD", "p"), ("POSTGRES_DB", "d")] k).isSome
        = true) ∧
    PostgresConnection._loadEnvConfig overflowing
        (envOf [("POSTGRES_USER", ""), ("POSTGRES_PASSWORD", "p"), ("POSTGRES_DB", "d")]) =
      .error ⟨"[PostgresConnection] Missing env variables: POSTGRES_USER"⟩ := by
  decide

/-- C8, amended: loading the configuration from the environment fails if and only if at
least one of `POSTGRES_USER`, `POSTGRES_PASSWORD`, `POSTGRES_DB` is absent or set to the
empty string. The message then is the fixed prefix followed by those names joined by ", ":
every required name that is absent or empty, no other, in the order USER, PASSWORD, DB.
The constructor without an explicit configuration fails with that same error. With only
`POSTGRES_USER` set the message lists `POSTGRES_PASSWORD` and `POSTGRES_DB`. -/
theorem loadEnvConfig_fails_iff_absent_or_empty (toNumber : Nat → JsNumber) (env : Env) :
    ((∃ e, PostgresConnection._loadEnvConfig toNumber env = .error e) ↔
      ∃ k ∈ ["POSTGRES_USER", "POSTGRES_PASSWORD", "POSTGRES_DB"],
        env k = none ∨ env k = some "") ∧
    (∀ e, PostgresConnection._loadEnvConfig toNumber env = .error e →
      e.message = "[PostgresConnection] Missing env variables: " ++
        ", ".intercalate (PostgresConnection._loadEnvConfig.missing env)) ∧
    (∀ k, k ∈ PostgresConnection._loadEnvConfig.missing env ↔
      k ∈ ["POSTGRES_USER", "POSTGRES_PASSWORD", "POSTGRES_DB"] ∧
        (env k = none ∨ env k = some "")) ∧
    (PostgresConnection._loadEnvConfig.missing env).Sublist
      ["POSTGRES_USER", "POSTGRES_PASSWORD", "POSTGRES_DB"] ∧
    (∀ (newPool : Config → Except JsError Pool) (e : JsError),
      PostgresConnection._loadEnvConfig toNumber env = .error e →
      PostgresConnection.constructor toNumber env newPool none = .error e) ∧
    PostgresConnection._loadEnvConfig toNumber (envOf [("POSTGRES_USER", "u")]) =
      .error ⟨"[PostgresConnection] Missing env variables: POSTGRES_PASSWORD, POSTGRES_DB"⟩ := by
  refine ⟨?_, ?_, mem_missing_iff env, List.filter_sublist _, ?_,
    (loadEnvConfig_error_iff toNumber _ _).2 ⟨by decide, by decide⟩⟩
  rotate_right
  · intro newPool e he
    simp [PostgresConnection.constructor, he, bind, Except.bind]
  · constructor
    · rintro ⟨e, he⟩
      have hne := ((loadEnvConfig_error_iff toNumber env e).1 he).1
      obtain ⟨k, hk⟩ := List.exists_mem_of_ne_nil _ hne
      exact ⟨k, ((mem_missing_iff env k).1 hk).1, ((mem_missing_iff env k).1 hk).2⟩
    · rintro ⟨k, hk, hv⟩
      refine ⟨_, (loadEnvConfig_error_iff toNumber env _).2 ⟨?_, rfl⟩⟩
      exact List.ne_nil_of_mem ((mem_missing_iff env k).2 ⟨hk, hv⟩)
  · intro e he
    rw [((loadEnvConfig_error_iff toNumber env e).1 he).2]

/-- Witness of C8 as amended: with only `POSTGRES_USER` set, loading fails and the message
is the prefix followed by the list of the missing names. -/
theorem loadEnvConfig_fails_iff_absent_or_empty_witness :
    (⟨"[PostgresConnection] Missing env variables: POSTGRES_PASSWORD, POSTGRES_DB"⟩ :
        JsError).message =
      "[PostgresConnection] Missing env variables: " ++
        ", ".intercalate
          (PostgresConnection._loadEnvConfig.missing (envOf [("POSTGRES_USER", "u")])) :=
  (loadEnvConfig_fails_iff_absent_or_empty overflowing (envOf [("POSTGRES_USER", "u")])).2.1
    ⟨"[PostgresConnection] Missing env variables: POSTGRES_PASSWORD, POSTGRES_DB"⟩ (by decide)

theorem loadEnvConfig_ok (toNumber : Nat → JsNumber) (env : Env)
    (hset : ∀ k ∈ ["POSTGRES_USER", "POSTGRES_PASSWORD", "POSTGRES_DB"],
      ∃ v, env k = some v ∧ v ≠ "") :
    PostgresConnection._loadEnvConfig toNumber env = .ok
      { user := toStr (env "POSTGRES_USER")
        host := toStr (if truthy (env "POSTGRES_HOST") then env "POSTGRES_HOST"
                       else some "localhost")
        database := toStr (env "POSTGRES_DB")
        password := toStr (env "POSTGRES_PASSWORD")
        port := if (Number.parseInt toNumber (env "POSTGRES_PORT")).truthy
                then Number.parseInt toNumber (env "POSTGRES_PORT") else .finite 5432 } := by
  have hm : PostgresConnection._loadEnvConfig.missing env = [] := by
    rw [List.eq_nil_iff_forall_not_mem]
    intro k hk
    obtain ⟨hreq, hv⟩ := (mem_missing_iff env k).1 hk
    obtain ⟨v, hv1, hv2⟩ := hset k hreq
    rcases hv with hv | hv
    · rw [hv1] at hv; cases hv
    · rw [hv1] at hv; injection hv with hv; exact hv2 hv
  unfold PostgresConnection._loadEnvConfig
  simp [hm, pure, Except.pure]

theorem truthy_iff_ne (x : JsNumber) : x.truthy = true ↔ x ≠ .nan ∧ x ≠ .finite 0 := by
  cases x with
  | finite q => simp [JsNumber.truthy]
  | nan => simp [JsNumber.truthy]
  | posInf => simp [JsNumber.truthy]
  | negInf => simp [JsNumber.truthy]

/-- C9, as stated, fails: with `POSTGRES_PORT` set to "0" the parse succeeds with 0, and
the port of the loaded configuration is 5432. -/
theorem loadEnvConfig_port_zero_is_default :
    Number.parseInt overflowing
        (envOf [("POSTGRES_USER", "u"), ("POSTGRES_PASSWORD", "p"), ("POSTGRES_DB", "d"),
          ("POSTGRES_PORT", "0")] "POSTGRES_PORT") = .finite 0 ∧
    (PostgresConnection._loadEnvConfig overflowing
        (envOf [("POSTGRES_USER", "u"), ("POSTGRES_PASSWORD", "p"), ("POSTGRES_DB", "d"),
          ("POSTGRES_PORT", "0")])).map (fun c => c.port) = .ok (.finite 5432) := by
  decide

/-- C9, amended: in an environment where the three required variables are set to non-empty
strings the configuration loads. Its port is the number that
`Number.parseInt(POSTGRES_PORT, 10)` returns whenever that number is neither `NaN` nor
zero: the integer read from the leading digits while it is below `2 ^ 53`, and beyond
that what the engine makes of it, a double near it or `Infinity`. Its port is 5432 when
`POSTGRES_PORT` is absent, has no leading integer, or parses to zero. Its host is
`POSTGRES_HOST` when that is set to a non-empty string and "localhost" otherwise. With
`POSTGRES_PORT` set to "9007199254740993" the port is what the engine makes of that
integer, unless that is zero or `NaN`. -/
theorem loadEnvConfig_port_and_host (toNumber : Nat → JsNumber) (env : Env)
    (hset : ∀ k ∈ ["POSTGRES_USER", "POSTGRES_PASSWORD", "POSTGRES_DB"],
      ∃ v, env k = some v ∧ v ≠ "") :
    (∃ cfg, PostgresConnection._loadEnvConfig toNumber env = .ok cfg ∧
      (Number.parseInt toNumber (env "POSTGRES_PORT") ≠ .nan →
        Number.parseInt toNumber (env "POSTGRES_PORT") ≠ .finite 0 →
        cfg.port = Number.parseInt toNumber (env "POSTGRES_PORT")) ∧
      (Number.parseInt toNumber (env "POSTGRES_PORT") = .finite 0 →
        cfg.port = .finite 5432) ∧
      (Number.parseInt toNumber (env "POSTGRES_PORT") = .nan → cfg.port = .finite 5432) ∧
      (env "POSTGRES_PORT" = none → cfg.port = .finite 5432) ∧
      (∀ h : String, env "POSTGRES_HOST" = some h → h ≠ "" → cfg.host = h) ∧
      (env "POSTGRES_HOST" = none ∨ env "POSTGRES_HOST" = some "" →
        cfg.host = "localhost")) ∧
    Number.parseInt toNumber (some "6543") = .finite 6543 ∧
    Number.parseInt toNumber (some " -12px") = .finite (-12) ∧
    Number.parseInt toNumber (some "9007199254740993") = toNumber 9007199254740993 ∧
    Number.parseInt toNumber (some "-9007199254740993") =
      (toNumber 9007199254740993).neg ∧
    Number.parseInt toNumber (some "px") = .nan := by
  refine ⟨⟨_, loadEnvConfig_ok toNumber env hset, ?_, ?_, ?_, ?_, ?_, ?_⟩,
    ?_, ?_, ?_, ?_, ?_⟩
  · intro h1 h2
    have := (truthy_iff_ne _).2 ⟨h1, h2⟩
    simp [this]
  · intro hq
    simp [hq, JsNumber.truthy]
  · intro hq
    simp [hq, JsNumber.truthy]
  · intro hq
    have : Number.parseInt toNumber none = .nan := rfl
    simp [hq, this, JsNumber.truthy]
  · intro h hh hne
    simp [hh, truthy, hne, toStr]
  · intro hh
    have := (truthy_eq_false_iff _).2 hh
    simp [this, toStr]
  · rfl
  · rfl
  · rfl
  · rfl
  · rfl

/-- Witness of C9 as amended: with `POSTGRES_PORT` set to a one followed by twenty zeros
and no `POSTGRES_HOST`, on an engine that makes `Infinity` of such an integer, the
configuration loads with the port `Infinity` and the host "localhost". -/
theorem loadEnvConfig_port_and_host_witness :
    ∃ cfg, PostgresConnection._loadEnvConfig overflowing
        (envOf [("POSTGRES_USER", "u"), ("POSTGRES_PASSWORD", "p"), ("POSTGRES_DB", "d"),
          ("POSTGRES_PORT", "100000000000000000000")]) = .ok cfg ∧
      cfg.port = .posInf ∧ cfg.host = "localhost" := by
  obtain ⟨cfg, hcfg, hport, -, -, -, -, hhost⟩ :=
    (loadEnvConfig_port_and_host overflowing
      (envOf [("POSTGRES_USER", "u"), ("POSTGRES_PASSWORD", "p"), ("POSTGRES_DB", "d"),
        ("POSTGRES_PORT", "100000000000000000000")])
      (by decide)).1
  have hparse : Number.parseInt overflowing
      (envOf [("POSTGRES_USER", "u"), ("POSTGRES_PASSWORD", "p"), ("POSTGRES_DB", "d"),
        ("POSTGRES_PORT", "100000000000000000000")] "POSTGRES_PORT") = .posInf := by
    decide
  refine ⟨cfg, hcfg, ?_, hhost (Or.inl (by decide))⟩
  rw [hport (by rw [hparse]; decide) (by rw [hparse]; decide), hparse]

end JsPg
